import Mathlib

/-!
Verification of the sentry's AIO context, mmap layout computation, seccomp
control-server filters, VFS rename locking, sandbox lifecycle and the mount
syscall flag handling, shallowly embedded from the Go sources of the
gvisor-ligolo repository.
-/

namespace Aio

/-- Result of `AIOContext.Prepare` (nil, EAGAIN or EINVAL), from
`pkg/sentry/mm/aio_context.go`. -/
inductive PrepareResult where
  | ok
  | eagain
  | einval
  deriving DecidableEq, Repr

/-- State of a single `AIOContext` (`pkg/sentry/mm/aio_context.go`).
`results` is the length of the completed-results list; `chanOpen` records
whether `requestReady` is non-nil (it is set to nil right after being
closed); `closeCount` counts how many times `close(requestReady)` ran. -/
structure AIOContext where
  maxOutstanding : Nat
  outstanding : Nat
  results : Nat
  dead : Bool
  chanOpen : Bool
  closeCount : Nat
  deriving DecidableEq, Repr

/-- `aioManager.newAIOContext`: fresh context with `maxOutstanding = events`,
a fresh (open, buffered) `requestReady` channel. -/
def newAIOContext (events : Nat) : AIOContext :=
  { maxOutstanding := events, outstanding := 0, results := 0,
    dead := false, chanOpen := true, closeCount := 0 }

/-- `AIOContext.checkForDone`: when `dead && outstanding == 0`, closes
`requestReady` and sets it to nil. Closing a nil channel panics in Go,
which the embedding renders as `none`. -/
def checkForDone (c : AIOContext) : Option AIOContext :=
  if c.dead && c.outstanding == 0 then
    if c.chanOpen then
      some { c with chanOpen := false, closeCount := c.closeCount + 1 }
    else
      none
  else
    some c

/-- `AIOContext.Prepare`: EINVAL when dead, EAGAIN when at capacity,
otherwise reserves one outstanding slot. -/
def prepare (c : AIOContext) : PrepareResult × AIOContext :=
  if c.dead then
    (.einval, c)
  else if c.outstanding ≥ c.maxOutstanding then
    (.eagain, c)
  else
    (.ok, { c with outstanding := c.outstanding + 1 })

/-- `AIOContext.FinishRequest`: pushes a completed result; the select-send
on `requestReady` never blocks or panics (nil channel falls to default). -/
def finishRequest (c : AIOContext) : AIOContext :=
  { c with results := c.results + 1 }

/-- `AIOContext.PopRequest`: pops one completed result when available;
panics (`none`) when a result exists while `outstanding == 0`. The Bool
records whether a request was popped. -/
def popRequest (c : AIOContext) : Option (Bool × AIOContext) :=
  if c.results > 0 then
    if c.outstanding == 0 then
      none
    else
      match checkForDone
          { c with outstanding := c.outstanding - 1, results := c.results - 1 } with
      | none => none
      | some c1 => some (true, c1)
  else
    some (false, c)

/-- `AIOContext.CancelPendingRequest`: undoes one Prepare; panics (`none`)
when `outstanding == 0`. -/
def cancelPendingRequest (c : AIOContext) : Option AIOContext :=
  if c.outstanding == 0 then
    none
  else
    checkForDone { c with outstanding := c.outstanding - 1 }

/-- `AIOContext.Drain`: returns immediately when `outstanding == 0`;
panics when `outstanding` would go negative; otherwise drops all completed
results and subtracts their count from `outstanding`. -/
def drain (c : AIOContext) : Option AIOContext :=
  if c.outstanding == 0 then
    some c
  else if c.outstanding < c.results then
    none
  else
    checkForDone { c with outstanding := c.outstanding - c.results, results := 0 }

/-- `AIOContext.destroy`: marks the context dead, then `checkForDone`. -/
def destroy (c : AIOContext) : Option AIOContext :=
  checkForDone { c with dead := true }

/-- `AIOContext.WaitChannel`: the notification channel, nil (`none`) once
the context is destroyed and fully drained. -/
def waitChannel (c : AIOContext) : Option Unit :=
  if c.chanOpen then some () else none

/-- One call against an `AIOContext`. -/
inductive Op where
  | prepare
  | finish
  | pop
  | cancel
  | drain
  | destroy
  deriving DecidableEq, Repr

/-- Effect of one call on the context state; `none` is a Go panic. -/
def step (op : Op) (c : AIOContext) : Option AIOContext :=
  match op with
  | .prepare => some (prepare c).2
  | .finish => some (finishRequest c)
  | .pop =>
    match popRequest c with
    | none => none
    | some p => some p.2
  | .cancel => cancelPendingRequest c
  | .drain => drain c
  | .destroy => destroy c

/-- Runs a sequence of calls from a given state. -/
def runFrom (c : AIOContext) : List Op → Option AIOContext
  | [] => some c
  | op :: ops =>
    match step op c with
    | none => none
    | some c1 => runFrom c1 ops

/-- Runs a sequence of calls against a context created with `events` slots. -/
def run (events : Nat) (ops : List Op) : Option AIOContext :=
  runFrom (newAIOContext events) ops

/-- Results of `n` consecutive Prepare calls. -/
def prepareN : Nat → AIOContext → List PrepareResult × AIOContext
  | 0, c => ([], c)
  | n + 1, c =>
    let p := prepare c
    let r := prepareN n p.2
    (p.1 :: r.1, r.2)

/-- The channel-lifecycle invariant: `requestReady` is nil exactly when
`dead && outstanding == 0`, and it has been closed exactly once in that
case and never otherwise. -/
def inv (c : AIOContext) : Prop :=
  (c.chanOpen = false ↔ (c.dead = true ∧ c.outstanding = 0)) ∧
  c.closeCount = (if c.dead = true ∧ c.outstanding = 0 then 1 else 0)

/-- Concrete context: the state reached from a fresh 0-slot context after one
destroy call. -/
def destroyedFresh : AIOContext :=
  { maxOutstanding := 0, outstanding := 0, results := 0, dead := true,
    chanOpen := false, closeCount := 1 }

/-- Concrete context: dead, used to exercise the EINVAL branch of Prepare. -/
def deadCtx : AIOContext :=
  { maxOutstanding := 8, outstanding := 0, results := 0, dead := true,
    chanOpen := true, closeCount := 0 }

/-- Concrete context: live and at capacity. -/
def fullCtx : AIOContext :=
  { maxOutstanding := 8, outstanding := 8, results := 0, dead := false,
    chanOpen := true, closeCount := 0 }

/-- Concrete context: live with free slots. -/
def freeCtx : AIOContext :=
  { maxOutstanding := 8, outstanding := 3, results := 0, dead := false,
    chanOpen := true, closeCount := 0 }

/-- Concrete context: the state reached after one Prepare and one
FinishRequest on a fresh 1-slot context. -/
def oneFinished : AIOContext :=
  { maxOutstanding := 1, outstanding := 1, results := 1, dead := false,
    chanOpen := true, closeCount := 0 }

/-- Concrete context: two outstanding requests, one of them completed. -/
def twoOutstanding : AIOContext :=
  { maxOutstanding := 4, outstanding := 2, results := 1, dead := false,
    chanOpen := true, closeCount := 0 }

end Aio

namespace Arch

/-- Modelled from the spec: page size of the address-space model (the
`hostarch` package is not under src/); pages are 4 KiB on amd64. -/
def pageSize : Nat := 4096

/-- Modelled from the spec: `hostarch.Addr.RoundDown`, rounding an address
down to the nearest page boundary. -/
def roundDown (v : Nat) : Nat := v / pageSize * pageSize

/-- Modelled from the spec: `hostarch.Addr.RoundUp`, rounding up to the
nearest page boundary in 64-bit address arithmetic; `none` when the
addition wraps. -/
def roundUp (v : Nat) : Option Nat :=
  let addr := roundDown ((v + pageSize - 1) % 2 ^ 64)
  if addr < v then none else some addr

/-- Modelled from the spec: `limits.Infinity`, the unlimited rlimit value
(all-ones in 64 bits). -/
def limitInfinity : Nat := 2 ^ 64 - 1

/-- Subtraction of 64-bit addresses with wraparound, for operands below
`2 ^ 64`. -/
def usub (a b : Nat) : Nat := if b ≤ a then a - b else 2 ^ 64 + a - b

/-- `maxAddr64`: TASK_SIZE for a 64-bit process (`pkg/sentry/arch/arch.go`,
amd64 constants). -/
def maxAddr64 : Nat := 2 ^ 47 - pageSize

/-- `maxStackRand64`: maximum stack randomization (16 GB). -/
def maxStackRand64 : Nat := 16 * 2 ^ 30

/-- `maxMmapRand64`: maximum mmap layout randomization. -/
def maxMmapRand64 : Nat := 2 ^ 28 * pageSize

/-- `minGap64`: minimum gap at the top of the address space for the stack. -/
def minGap64 : Nat := 128 * 2 ^ 20 + maxStackRand64

/-- `preferredTopDownAllocMin`: preferred minimum top-down allocation
address (TSAN compatibility). -/
def preferredTopDownAllocMin : Nat := 0x7e8000000000

/-- `preferredAllocationGap`: preferred gap left below TopDownBase (128 GB). -/
def preferredAllocationGap : Nat := 128 * 2 ^ 30

/-- `preferredTopDownBaseMin`: preferred minimum TopDownBase. -/
def preferredTopDownBaseMin : Nat := preferredTopDownAllocMin + preferredAllocationGap

/-- `minMmapRand64`: the smallest allowed shrunk randomization range. -/
def minMmapRand64 : Nat := 2 ^ 26 * pageSize

/-- `MmapDirection`: search direction for mmaps (`pkg/sentry/arch/arch.go`). -/
inductive MmapDirection where
  | bottomUp
  | topDown
  deriving DecidableEq, Repr

/-- `MmapLayout`: layout of the user address space
(`pkg/sentry/arch/arch.go`). -/
structure MmapLayout where
  MinAddr : Nat
  MaxAddr : Nat
  BottomUpBase : Nat
  TopDownBase : Nat
  DefaultDirection : MmapDirection
  MaxStackRand : Nat
  deriving DecidableEq, Repr

/-- `MmapLayout.Valid` (`pkg/sentry/arch/arch.go`). -/
def MmapLayout.Valid (m : MmapLayout) : Bool :=
  if m.MinAddr > m.MaxAddr then false
  else if m.BottomUpBase < m.MinAddr then false
  else if m.BottomUpBase > m.MaxAddr then false
  else if m.TopDownBase < m.MinAddr then false
  else if m.TopDownBase > m.MaxAddr then false
  else true

/-- `mmapRand`: a page-aligned random adjustment below `bound`; the random
draw `r` is an explicit parameter (`rand.Int63n(bound)` is uniform on
`[0, bound)`, and callers only pass positive bounds). -/
def mmapRand (r bound : Nat) : Nat := roundDown (r % bound)

/-- Outcome of `Context64.NewMmapLayout`: EINVAL, the final sanity-check
panic, or a returned layout. -/
inductive MmapResult where
  | einval
  | panicked
  | ok (l : MmapLayout)
  deriving DecidableEq, Repr

/-- The stack gap computed by `Context64.NewMmapLayout`: the current stack
limit, raised to `minGap64` and capped at `MAX_GAP = maxA/6*5`. -/
def stackGap (maxA stackCur : Nat) : Nat :=
  let maxGap := maxA / 6 * 5
  let gap0 := stackCur
  let gap1 := if gap0 < minGap64 then minGap64 else gap0
  if gap1 > maxGap then maxGap else gap1

/-- The (possibly shrunk) randomization bound computed by
`Context64.NewMmapLayout` to keep TopDownBase above
`preferredTopDownBaseMin` when possible. -/
def maxRandFor (maxA gap : Nat) : Nat :=
  let topDownMin := usub (usub maxA gap) maxMmapRand64
  if topDownMin < preferredTopDownBaseMin then
    let maxAdjust := maxMmapRand64 - minMmapRand64
    let needAdjust := usub preferredTopDownBaseMin topDownMin
    if needAdjust ≤ maxAdjust then maxMmapRand64 - needAdjust
    else maxMmapRand64
  else maxMmapRand64

/-- The candidate layout built by `Context64.NewMmapLayout` before its final
sanity check. -/
def layoutOf (minA maxA stackCur r : Nat) : MmapLayout :=
  let gap := stackGap maxA stackCur
  let maxRand := maxRandFor maxA gap
  let rnd := mmapRand r maxRand
  { MinAddr := minA
    MaxAddr := maxA
    BottomUpBase := roundDown ((maxA / 3 + rnd) % 2 ^ 64)
    TopDownBase := roundDown (usub (usub maxA gap) rnd)
    DefaultDirection := if stackCur = limitInfinity
      then MmapDirection.bottomUp else MmapDirection.topDown
    MaxStackRand := maxRand }

/-- `Context64.NewMmapLayout` (`pkg/sentry/arch/arch.go`, amd64): rounds and
clamps the bounds, computes the stack gap, possibly shrinks the
randomization range, draws the randomization, and sanity-checks the
layout, panicking when the check fails. `stackCur` is
`limits.Get(Stack).Cur`, `r` the random draw. -/
def newMmapLayout (min0 max0 stackCur r : Nat) : MmapResult :=
  match roundUp min0 with
  | none => .einval
  | some minA =>
    let maxA := roundDown (if max0 > maxAddr64 then maxAddr64 else max0)
    if minA > maxA then .einval
    else
      let l := layoutOf minA maxA stackCur r
      if l.Valid then .ok l else .panicked

end Arch

namespace Filter

/-- Modelled from the spec: one seccomp argument matcher (the `seccomp`
package is not under src/): `MatchAny`, `EqualTo(n)` or `GreaterThan(n)`. -/
inductive ArgMatcher where
  | matchAny
  | equalTo (n : Nat)
  | greaterThan (n : Nat)
  deriving DecidableEq, Repr

/-- Modelled from the spec: whether one argument matcher accepts a value. -/
def argMatch : ArgMatcher → Nat → Bool
  | .matchAny, _ => true
  | .equalTo n, a => a == n
  | .greaterThan n, a => decide (a > n)

/-- Modelled from the spec: a `seccomp.Rule` is a list of argument matchers
checked positionally against the syscall arguments; unspecified trailing
arguments match anything. -/
def ruleMatch : List ArgMatcher → List Nat → Bool
  | [], _ => true
  | _ :: _, [] => false
  | m :: ms, a :: rest => argMatch m a && ruleMatch ms rest

/-- Modelled from the spec: `seccomp.SyscallRules` allows a call when some
entry has the call's syscall number and either an empty rule list (allow
unconditionally) or some rule matching the arguments. -/
def allows (rules : List (Nat × List (List ArgMatcher))) (sysno : Nat)
    (args : List Nat) : Bool :=
  rules.any fun e => e.1 == sysno && (e.2.isEmpty || e.2.any fun r => ruleMatch r args)

/-- amd64 syscall number of accept4. -/
def sysAccept4 : Nat := 288

/-- amd64 syscall number of listen. -/
def sysListen : Nat := 50

/-- amd64 syscall number of getsockopt. -/
def sysGetsockopt : Nat := 55

/-- SOL_SOCKET. -/
def solSocket : Nat := 1

/-- SO_PEERCRED. -/
def soPeercred : Nat := 17

/-- `controlServerFilters` (`runsc/boot/filter/config.go`): the seccomp
sub-policy for the control server on socket FD `fd`. -/
def controlServerFilters (fd : Nat) : List (Nat × List (List ArgMatcher)) :=
  [ (sysAccept4, [[.equalTo fd]]),
    (sysListen, [[.equalTo fd, .equalTo 16]]),
    (sysGetsockopt, [[.matchAny, .equalTo solSocket, .equalTo soPeercred]]) ]

end Filter

namespace Vfs

/-- Count of mounts in a namespace using dentry `d` as a mount point
(`mntns.mountpoints[d]`, zero when absent); dentries are identified by
their addresses. -/
def mpCount (mp : List (Nat × Nat)) (d : Nat) : Nat :=
  (((mp.find? fun e => e.1 == d).map fun e => e.2).getD 0)

/-- Outcome of `PrepareRenameDentry`: EBUSY with no mutex acquired, or
success together with the dentry mutexes in acquisition order. -/
inductive RenameOutcome where
  | ebusy
  | ok (locks : List Nat)
  deriving DecidableEq, Repr

/-- `VirtualFilesystem.PrepareRenameDentry` (`pkg/sentry/vfs/dentry.go`):
under the mount mutex (held for the whole call, which is what makes the
two acquisitions atomic), EBUSY when a mount uses `fromD`, then when a
mount uses `toD`; otherwise locks `toD`'s mutex (when non-nil) and then
`fromD`'s. -/
def prepareRenameDentry (mp : List (Nat × Nat)) (fromD : Nat) (toD : Option Nat) :
    RenameOutcome :=
  if mpCount mp fromD ≠ 0 then .ebusy
  else
    match toD with
    | some t =>
      if mpCount mp t ≠ 0 then .ebusy
      else .ok [t, fromD]
    | none => .ok [fromD]

/-- Whether a lock-acquisition trace is in ascending address order. -/
def ascending : List Nat → Bool
  | [] => true
  | [_] => true
  | a :: b :: rest => a ≤ b && ascending (b :: rest)

/-- Whether a lock-acquisition trace is in descending address order. -/
def descending : List Nat → Bool
  | [] => true
  | [_] => true
  | a :: b :: rest => b ≤ a && descending (b :: rest)

end Vfs

namespace Runsc

/-- `Sandbox.createSandboxProcess` CPU-count computation
(`runsc/sandbox/sandbox.go`): starting from the cgroup's CPU count, when
`cpu-num-from-quota` is set and `ceil(quota)` is positive, raise
`ceil(quota)` to the minimum of 2 and use it only if that lowers the
count. The float64 quota is modelled as a rational. -/
def cpuNumArg (cpuNum : Int) (cpuNumFromQuota : Bool) (quota : ℚ) : Int :=
  if cpuNumFromQuota then
    let n := ⌈quota⌉
    if n > 0 then
      let n2 := if n < 2 then 2 else n
      if n2 < cpuNum then n2 else cpuNum
    else cpuNum
  else cpuNum

/-- The runsc-side state of a sandbox (`runsc/sandbox/sandbox.go`):
`controlAddress` holds the bytes of `s.ControlAddress` (a leading zero byte
marks an abstract unix-domain socket), `pid` is `s.Pid` (0 = unknown),
`child` is `s.child`. -/
structure Sandbox where
  controlAddress : List Nat
  pid : Nat
  child : Bool
  deriving DecidableEq, Repr

/-- The host state `destroy` acts on: whether the control socket file
exists, whether the boot process is alive, and whether its zombie has been
reaped by `Wait4`. -/
structure Host where
  controlFileExists : Bool
  processAlive : Bool
  reaped : Bool
  deriving DecidableEq, Repr

/-- Whether the control address is a filesystem path (`len > 0` and not an
abstract socket). -/
def isFsPath : List Nat → Bool
  | [] => false
  | b :: _ => b != 0

/-- The `os.Remove(s.ControlAddress)` step of `Sandbox.destroy`: only for
filesystem paths; a removal failure is logged and ignored. -/
def removeControlFile (s : Sandbox) (h : Host) : Host :=
  match s.controlAddress with
  | [] => h
  | b :: _ => if b != 0 then { h with controlFileExists := false } else h

/-- `Sandbox.waitForStopped` (`runsc/sandbox/sandbox.go`): for a child
sandbox process, `Wait4` reaps the zombie and zeroes `s.Pid` (`none` when
it was already reaped); otherwise poll `IsRunning` until the process is
gone (`none` models the 5-second poll timing out on a live process). -/
def waitForStopped (s : Sandbox) (h : Host) : Option (Sandbox × Host) :=
  if s.child then
    if s.pid = 0 then some (s, h)
    else if h.reaped then none
    else some ({ s with pid := 0 }, { h with reaped := true })
  else
    if h.processAlive then none else some (s, h)

/-- `Sandbox.destroy` (`runsc/sandbox/sandbox.go`): remove the control
socket file when the address is a filesystem path (failure ignored), and
when the PID is known, SIGKILL the boot process (ESRCH ignored) and wait
for it to stop. `none` is an error return. -/
def destroy (s : Sandbox) (h : Host) : Option (Sandbox × Host) :=
  let h1 := removeControlFile s h
  if s.pid ≠ 0 then
    waitForStopped s { h1 with processAlive := false }
  else
    some (s, h1)

/-- A concrete non-child sandbox with a filesystem control socket. -/
def sandboxEx : Sandbox := { controlAddress := [47, 116], pid := 7, child := false }

/-- Host state before destroying `sandboxEx`. -/
def hostEx : Host := { controlFileExists := true, processAlive := true, reaped := false }

/-- Host state after destroying `sandboxEx`. -/
def hostExAfter : Host :=
  { controlFileExists := false, processAlive := false, reaped := false }

end Runsc

namespace Boot

/-- Environment of one `containerManager.Restore` call (`boot/controller.go`,
provided as src/unnamed/part_000): the sizes of the donated files and the
success of each fallible step between the file-count check and the state
load. -/
structure RestoreEnv where
  fileSizes : List Nat
  dupOk : Bool
  platformOk : Bool
  memFileOk : Bool
  restoreEnvOk : Bool
  statOk : Bool
  seccompOk : Bool
  loadOk : Bool
  startOk : Bool
  deriving DecidableEq, Repr

/-- Outcome of `containerManager.Restore`: whether an error was returned
and whether the state-file load (`loadOpts.Load`) was reached. -/
structure RestoreOutcome where
  err : Bool
  loadAttempted : Bool
  deriving DecidableEq, Repr

/-- `containerManager.Restore` (src/unnamed/part_000): reject zero files
("at least one file must be passed") and more than two ("at most two files
may be passed"); with two files, dup the device file; pause, create the
platform, the kernel and the memory file, configure the restore
environment, stat the state file and reject an empty one ("file cannot be
empty"); only then install seccomp filters and load the object graph. -/
def restore (e : RestoreEnv) : RestoreOutcome :=
  if e.fileSizes.length = 0 then ⟨true, false⟩
  else if 2 < e.fileSizes.length then ⟨true, false⟩
  else if e.fileSizes.length = 2 ∧ ¬e.dupOk then ⟨true, false⟩
  else if ¬e.platformOk then ⟨true, false⟩
  else if ¬e.memFileOk then ⟨true, false⟩
  else if ¬e.restoreEnvOk then ⟨true, false⟩
  else if ¬e.statOk then ⟨true, false⟩
  else if e.fileSizes.headD 0 = 0 then ⟨true, false⟩
  else if ¬e.seccompOk then ⟨true, false⟩
  else if ¬e.loadOk then ⟨true, true⟩
  else if ¬e.startOk then ⟨true, true⟩
  else ⟨false, true⟩

/-- A two-file Restore call whose state file is empty. -/
def emptyStateEnv : RestoreEnv :=
  { fileSizes := [0, 9], dupOk := true, platformOk := true,
    memFileOk := true, restoreEnvOk := true, statOk := true,
    seccompOk := true, loadOk := true, startOk := true }

/-- A one-file Restore call with a non-empty state file and all steps
succeeding. -/
def goodStateEnv : RestoreEnv :=
  { fileSizes := [4096], dupOk := true, platformOk := true,
    memFileOk := true, restoreEnvOk := true, statOk := true,
    seccompOk := true, loadOk := true, startOk := true }

end Boot

namespace Mount

/-- Modelled from the spec: Linux MS_REMOUNT (the `abi/linux` mount flag
constants are not under src/; values are the Linux ABI). -/
def MS_REMOUNT : Nat := 32

/-- Modelled from the spec: Linux MS_NODIRATIME. -/
def MS_NODIRATIME : Nat := 2048

/-- Modelled from the spec: Linux MS_BIND. -/
def MS_BIND : Nat := 4096

/-- Modelled from the spec: Linux MS_MOVE. -/
def MS_MOVE : Nat := 8192

/-- Modelled from the spec: Linux MS_REC. -/
def MS_REC : Nat := 16384

/-- Modelled from the spec: Linux MS_UNBINDABLE. -/
def MS_UNBINDABLE : Nat := 1 <<< 17

/-- Modelled from the spec: Linux MS_PRIVATE. -/
def MS_PRIVATE : Nat := 1 <<< 18

/-- Modelled from the spec: Linux MS_SLAVE. -/
def MS_SLAVE : Nat := 1 <<< 19

/-- Modelled from the spec: Linux MS_SHARED. -/
def MS_SHARED : Nat := 1 <<< 20

/-- Modelled from the spec: Linux MS_STRICTATIME. -/
def MS_STRICTATIME : Nat := 1 <<< 24

/-- Modelled from the spec: Linux MS_MGC_VAL, the pre-2.4 mount magic. -/
def MS_MGC_VAL : Nat := 0xC0ED0000

/-- Modelled from the spec: Linux MS_MGC_MSK. -/
def MS_MGC_MSK : Nat := 0xffff0000

/-- Go `&^` (AND NOT) on 64-bit words. -/
def andNot (a b : Nat) : Nat := a &&& (2 ^ 64 - 1 - b)

/-- The `unsupported` flag mask of `Mount`
(`pkg/sentry/syscalls/linux/sys_mount.go`). -/
def unsupportedFlags : Nat :=
  MS_REMOUNT ||| MS_SLAVE ||| MS_UNBINDABLE ||| MS_MOVE ||| MS_REC |||
    MS_NODIRATIME ||| MS_STRICTATIME

/-- The `propagationFlags` mask of `Mount`. -/
def propagationFlags : Nat := MS_SHARED ||| MS_PRIVATE ||| MS_SLAVE ||| MS_UNBINDABLE

/-- Modelled from the spec: `bits.IsPowerOfTwo64` (the `bits` package is not
under src/): x is nonzero and has a single set bit. -/
def isPowerOfTwo64 (x : Nat) : Bool := x != 0 && (x &&& (x - 1)) == 0

/-- The magic-stripping prologue of `Mount`: drop the pre-2.4 magic when
present. -/
def stripMagic (flags : Nat) : Nat :=
  if flags &&& MS_MGC_MSK = MS_MGC_VAL then andNot flags MS_MGC_MSK else flags

/-- How one `mount(2)` call resolves
(`pkg/sentry/syscalls/linux/sys_mount.go`): capability failure, EINVAL,
a path-resolution error, dispatch to `BindAt`, dispatch to
`SetMountPropagationAt` with the single propagation flag, or a normal new
mount. -/
inductive MountAction where
  | eperm
  | einval
  | pathError
  | bindAt
  | setPropagation (propFlag : Nat)
  | newMount
  deriving DecidableEq, Repr

/-- `Mount` (`pkg/sentry/syscalls/linux/sys_mount.go`): check
CAP_SYS_ADMIN, strip the magic, reject unsupported flags with EINVAL,
resolve the target path, dispatch MS_BIND to BindAt, dispatch a nonzero
propagation selection to SetMountPropagationAt after rejecting non-powers
of two with EINVAL, and otherwise fall through to a normal mount.
`targetOk` and `sourceOk` abstract the path copy-in and resolution
steps. -/
def mountSyscall (hasCap : Bool) (flags0 : Nat) (targetOk sourceOk : Bool) :
    MountAction :=
  if ¬hasCap then .eperm
  else
    let flags := stripMagic flags0
    if flags &&& unsupportedFlags ≠ 0 then .einval
    else if ¬targetOk then .pathError
    else if flags &&& MS_BIND = MS_BIND then
      (if sourceOk then .bindAt else .pathError)
    else
      let propFlag := flags &&& propagationFlags
      if propFlag ≠ 0 then
        if ¬isPowerOfTwo64 propFlag then .einval
        else .setPropagation propFlag
      else .newMount

end Mount

namespace Aio

theorem inv_newAIOContext (events : Nat) : inv (newAIOContext events) := by
  simp [inv, newAIOContext]

theorem inv_checkForDone {c c1 : AIOContext}
    (hopen : c.chanOpen = true) (hcount : c.closeCount = 0)
    (hc : checkForDone c = some c1) : inv c1 := by
  unfold checkForDone at hc
  unfold inv
  repeat' split at hc
  all_goals try cases hc
  · rename_i hcond
    simp only [Bool.and_eq_true, beq_iff_eq] at hcond
    simp [hcond.1, hcond.2, hcount]
  · rename_i hcond
    simp only [Bool.and_eq_true, beq_iff_eq, not_and] at hcond
    have hP : ¬(c.dead = true ∧ c.outstanding = 0) := fun hp => hcond hp.1 hp.2
    constructor
    · simp [hopen, hP]
    · simp [hP, hcount]

theorem inv_step {op : Op} {c c1 : AIOContext} (h : inv c) (hs : step op c = some c1) :
    inv c1 := by
  have h1 := h.1
  have h2 := h.2
  clear h
  cases op
  case prepare =>
    simp only [step, prepare] at hs
    split at hs
    · cases hs; exact ⟨h1, h2⟩
    · split at hs
      · cases hs; exact ⟨h1, h2⟩
      · rename_i hdead _
        cases hs
        simp only [Bool.not_eq_true] at hdead
        constructor
        · simp [inv, hdead] at h1 ⊢
          simpa [hdead] using h1
        · simpa [hdead] using h2
  case finish =>
    cases hs
    constructor
    · simpa using h1
    · simpa using h2
  case pop =>
    simp only [step] at hs
    cases hpop : popRequest c with
    | none => rw [hpop] at hs; cases hs
    | some p =>
      rw [hpop] at hs
      simp only [Option.some.injEq] at hs
      subst hs
      unfold popRequest at hpop
      split at hpop
      · split at hpop
        · cases hpop
        · rename_i hres hout
          simp only [beq_iff_eq] at hout
          cases hcd : checkForDone
              { c with outstanding := c.outstanding - 1, results := c.results - 1 } with
          | none => rw [hcd] at hpop; cases hpop
          | some cm =>
            rw [hcd] at hpop
            cases hpop
            have hne : ¬(c.dead = true ∧ c.outstanding = 0) := fun hcc => hout hcc.2
            have hopen : c.chanOpen = true := by
              cases hb : c.chanOpen
              · exact absurd (h1.mp hb) hne
              · rfl
            have hcount : c.closeCount = 0 := by simpa [hne] using h2
            exact @inv_checkForDone
              { c with outstanding := c.outstanding - 1, results := c.results - 1 }
              cm hopen hcount hcd
      · cases hpop; exact ⟨h1, h2⟩
  case cancel =>
    simp only [step, cancelPendingRequest] at hs
    split at hs
    · cases hs
    · rename_i hout
      simp only [beq_iff_eq] at hout
      have hne : ¬(c.dead = true ∧ c.outstanding = 0) := fun hcc => hout hcc.2
      have hopen : c.chanOpen = true := by
        cases hb : c.chanOpen
        · exact absurd (h1.mp hb) hne
        · rfl
      have hcount : c.closeCount = 0 := by simpa [hne] using h2
      exact @inv_checkForDone { c with outstanding := c.outstanding - 1 } c1 hopen hcount hs
  case drain =>
    simp only [step, drain] at hs
    split at hs
    · cases hs; exact ⟨h1, h2⟩
    · split at hs
      · cases hs
      · rename_i hout _
        simp only [beq_iff_eq] at hout
        have hne : ¬(c.dead = true ∧ c.outstanding = 0) := fun hcc => hout hcc.2
        have hopen : c.chanOpen = true := by
          cases hb : c.chanOpen
          · exact absurd (h1.mp hb) hne
          · rfl
        have hcount : c.closeCount = 0 := by simpa [hne] using h2
        exact @inv_checkForDone
          { c with outstanding := c.outstanding - c.results, results := 0 }
          c1 hopen hcount hs
  case destroy =>
    simp only [step, destroy] at hs
    by_cases hd : c.dead = true ∧ c.outstanding = 0
    · have hcl : c.chanOpen = false := h1.mpr hd
      have : checkForDone { c with dead := true } = none := by
        simp [checkForDone, hd.2, hcl]
      rw [this] at hs
      cases hs
    · have hopen : c.chanOpen = true := by
        cases hb : c.chanOpen
        · exact absurd (h1.mp hb) hd
        · rfl
      have hcount : c.closeCount = 0 := by simpa [hd] using h2
      exact @inv_checkForDone { c with dead := true } c1 hopen hcount hs

theorem inv_runFrom {c c1 : AIOContext} (ops : List Op) (h : inv c)
    (hr : runFrom c ops = some c1) : inv c1 := by
  induction ops generalizing c with
  | nil => cases hr; exact h
  | cons op ops ih =>
    simp only [runFrom] at hr
    cases hstep : step op c with
    | none => simp [hstep] at hr
    | some cm =>
      simp only [hstep] at hr
      exact ih (inv_step h hstep) hr

/-- Claim C1: for every context and every sequence of Prepare, FinishRequest,
PopRequest, CancelPendingRequest, Drain and destroy calls, `requestReady` is
closed exactly once, at the first point where `dead` holds and `outstanding`
is zero, never a second time, and from then on WaitChannel returns nil. -/
theorem requestReady_closed_once (events : Nat) (ops : List Op) (c : AIOContext)
    (h : run events ops = some c) :
    c.closeCount ≤ 1 ∧
    (c.closeCount = 1 ↔ (c.dead = true ∧ c.outstanding = 0)) ∧
    (waitChannel c = none ↔ c.closeCount = 1) := by
  have hinv := inv_runFrom ops (inv_newAIOContext events) h
  obtain ⟨h1, h2⟩ := hinv
  by_cases hP : c.dead = true ∧ c.outstanding = 0
  · rw [if_pos hP] at h2
    refine ⟨by omega, by simp [hP, h2], ?_⟩
    simp [waitChannel, h1.mpr hP, h2]
  · rw [if_neg hP] at h2
    refine ⟨by omega, by simp [hP, h2], ?_⟩
    have hopen : c.chanOpen = true := by
      cases hb : c.chanOpen
      · exact absurd (h1.mp hb) hP
      · rfl
    simp [waitChannel, hopen, h2]

/-- Witness for C1: the concrete sequence consisting of one destroy call. -/
theorem requestReady_closed_once_witness :
    destroyedFresh.closeCount ≤ 1 ∧
    (destroyedFresh.closeCount = 1 ↔
      (destroyedFresh.dead = true ∧ destroyedFresh.outstanding = 0)) ∧
    (waitChannel destroyedFresh = none ↔ destroyedFresh.closeCount = 1) :=
  requestReady_closed_once 0 [Op.destroy] destroyedFresh (by decide)

/-- Claim C3: Prepare returns EINVAL when the context is dead (checked before
capacity), EAGAIN when `outstanding ≥ maxOutstanding`, and otherwise
increments `outstanding`; with `events = 8`, eight Prepares succeed and the
ninth returns EAGAIN. -/
theorem prepare_einval_eagain (c : AIOContext) :
    (c.dead = true → prepare c = (.einval, c)) ∧
    (c.dead = false → c.outstanding ≥ c.maxOutstanding → prepare c = (.eagain, c)) ∧
    (c.dead = false → c.outstanding < c.maxOutstanding →
      prepare c = (.ok, { c with outstanding := c.outstanding + 1 })) ∧
    (prepareN 9 (newAIOContext 8)).1 =
      [.ok, .ok, .ok, .ok, .ok, .ok, .ok, .ok, .eagain] := by
  refine ⟨?_, ?_, ?_, by decide⟩
  · intro hd
    simp [prepare, hd]
  · intro hd hge
    simp [prepare, hd, hge]
  · intro hd hlt
    simp [prepare, hd, Nat.not_le.mpr hlt]

/-- Witness for C3: a dead context, a context at capacity, and a free slot. -/
theorem prepare_einval_eagain_witness :
    prepare deadCtx = (.einval, deadCtx) ∧
    prepare fullCtx = (.eagain, fullCtx) ∧
    prepare freeCtx = (.ok, { freeCtx with outstanding := freeCtx.outstanding + 1 }) :=
  ⟨(prepare_einval_eagain deadCtx).1 rfl,
   (prepare_einval_eagain fullCtx).2.1 rfl (by decide),
   (prepare_einval_eagain freeCtx).2.2.1 rfl (by decide)⟩

/-- Counterexample to claim C4: after one Prepare and one FinishRequest the
outstanding counter is 1, and Drain lowers it to 0 — Drain does not leave
the outstanding count alone. -/
theorem drain_changes_outstanding :
    run 1 [Op.prepare, Op.finish] = some oneFinished ∧
    oneFinished.outstanding = 1 ∧
    (drain oneFinished).map AIOContext.outstanding = some 0 ∧
    ¬((drain oneFinished).map AIOContext.outstanding = some 1) := by
  decide

/-- Claim C4 (amended): Drain empties the completed-results list and
decrements `outstanding` by the number of completed results (pending,
not-yet-completed requests stay counted); with `outstanding = 0` it is a
no-op. -/
theorem drain_spec (c : AIOContext) :
    (c.outstanding = 0 → drain c = some c) ∧
    (c.chanOpen = true → 0 < c.outstanding → c.results ≤ c.outstanding →
      ∃ c1, drain c = some c1 ∧ c1.results = 0 ∧
        c1.outstanding = c.outstanding - c.results) := by
  constructor
  · intro h0
    simp [drain, h0]
  · intro hopen hpos hle
    have h1 : ¬((c.outstanding == 0) = true) := by
      simp only [beq_iff_eq]
      omega
    have h2 : ¬(c.outstanding < c.results) := by omega
    rw [drain, if_neg h1, if_neg h2]
    unfold checkForDone
    split
    · exact ⟨_, rfl, rfl, rfl⟩
    · exact ⟨_, rfl, rfl, rfl⟩

/-- Witness for C4 (amended): draining one completed result out of two
outstanding requests. -/
theorem drain_spec_witness :
    ∃ c1, drain twoOutstanding = some c1 ∧ c1.results = 0 ∧
      c1.outstanding = twoOutstanding.outstanding - twoOutstanding.results :=
  (drain_spec twoOutstanding).2 rfl (by decide) (by decide)

end Aio

namespace Arch

/-- Counterexample to claim C5: with `min = 0`, `max = 24576` (six pages),
an empty stack limit and the random draw `2 ^ 39`, NewMmapLayout reaches
the final sanity check with `TopDownBase` wrapped far above `MaxAddr`, so
the panic fires: it is not unreachable. -/
theorem newMmapLayout_panic_reachable :
    newMmapLayout 0 24576 0 (2 ^ 39) = .panicked := by decide

/-- Claim C5 (amended): for every `min`, `max`, stack limit and random
draw, NewMmapLayout returns EINVAL, or panics at the final sanity check,
or returns a layout satisfying `Valid` (in particular one with
`MinAddr ≤ MaxAddr`); the panic, however, is reachable. -/
theorem newMmapLayout_trichotomy (min0 max0 stackCur r : Nat) :
    newMmapLayout min0 max0 stackCur r = .einval ∨
    newMmapLayout min0 max0 stackCur r = .panicked ∨
    ∃ l, newMmapLayout min0 max0 stackCur r = .ok l ∧ l.Valid = true := by
  unfold newMmapLayout
  dsimp only
  repeat' split
  all_goals first
    | exact Or.inl rfl
    | exact Or.inr (Or.inl rfl)
    | (rename_i h; exact Or.inr (Or.inr ⟨_, rfl, h⟩))

end Arch

namespace Filter

/-- Claim C6: the control-server sub-policy admits exactly accept4 on the
controller FD, listen on the controller FD with backlog 16, and getsockopt
with SOL_SOCKET / SO_PEERCRED — and nothing else. -/
theorem controlServerFilters_exact (fd sysno a0 a1 a2 a3 a4 a5 : Nat) :
    allows (controlServerFilters fd) sysno [a0, a1, a2, a3, a4, a5] = true ↔
      ((sysno = sysAccept4 ∧ a0 = fd) ∨
       (sysno = sysListen ∧ a0 = fd ∧ a1 = 16) ∨
       (sysno = sysGetsockopt ∧ a1 = solSocket ∧ a2 = soPeercred)) := by
  simp only [allows, controlServerFilters, ruleMatch, argMatch, List.any_cons,
    List.any_nil, List.isEmpty_cons, Bool.false_or, Bool.or_false,
    Bool.and_eq_true, Bool.or_eq_true, beq_iff_eq, decide_eq_true_eq,
    Bool.and_true, Bool.true_and]
  constructor
  · rintro (⟨h, h1⟩ | ⟨h, h1⟩ | ⟨h, h1⟩)
    · exact Or.inl ⟨h.symm, h1⟩
    · exact Or.inr (Or.inl ⟨h.symm, h1⟩)
    · exact Or.inr (Or.inr ⟨h.symm, h1⟩)
  · rintro (⟨h, h1⟩ | ⟨h, h1⟩ | ⟨h, h1⟩)
    · exact Or.inl ⟨h.symm, h1⟩
    · exact Or.inr (Or.inl ⟨h.symm, h1⟩)
    · exact Or.inr (Or.inr ⟨h.symm, h1⟩)

end Filter

namespace Vfs

/-- Counterexample to claim C7: with no mounts, renaming dentry 1 over
dentry 2 locks 2 then 1 (not ascending address order), while renaming 2
over 1 locks 1 then 2 (not descending address order): the acquisition
order is to-then-from, a role order, not a canonical order by address
comparison. -/
theorem prepareRenameDentry_not_address_order :
    prepareRenameDentry [] 1 (some 2) = .ok [2, 1] ∧
    ascending [2, 1] = false ∧
    prepareRenameDentry [] 2 (some 1) = .ok [1, 2] ∧
    descending [1, 2] = false := by decide

/-- Claim C7 (amended): PrepareRenameDentry returns EBUSY, acquiring no
dentry mutex, when a mount in the namespace uses `fromD` or `toD` as a
mount point; otherwise it succeeds, acquiring both dentry mutexes while
holding the mount mutex (hence atomically), in the fixed role order `toD`
first then `fromD` — not in address order. -/
theorem prepareRenameDentry_spec (mp : List (Nat × Nat)) (fromD : Nat)
    (toD : Option Nat) :
    (mpCount mp fromD ≠ 0 → prepareRenameDentry mp fromD toD = .ebusy) ∧
    (∀ t, toD = some t → mpCount mp t ≠ 0 →
      prepareRenameDentry mp fromD toD = .ebusy) ∧
    (toD = none → mpCount mp fromD = 0 →
      prepareRenameDentry mp fromD toD = .ok [fromD]) ∧
    (∀ t, toD = some t → mpCount mp fromD = 0 → mpCount mp t = 0 →
      prepareRenameDentry mp fromD toD = .ok [t, fromD]) := by
  refine ⟨?_, ?_, ?_, ?_⟩
  · intro h
    simp [prepareRenameDentry, h]
  · intro t ht h
    subst ht
    by_cases hf : mpCount mp fromD ≠ 0
    · simp [prepareRenameDentry, hf]
    · simp [prepareRenameDentry, hf, h]
  · intro ht h
    subst ht
    simp [prepareRenameDentry, h]
  · intro t ht hf h
    subst ht
    simp [prepareRenameDentry, hf, h]

/-- Witness for C7 (amended): dentry 3 is a mount point, so renaming it
fails with EBUSY; renaming 1 over 2 with no mounts locks 2 then 1. -/
theorem prepareRenameDentry_spec_witness :
    prepareRenameDentry [(3, 1)] 3 (some 5) = .ebusy ∧
    prepareRenameDentry [] 1 (some 4) = .ok [4, 1] :=
  ⟨(prepareRenameDentry_spec [(3, 1)] 3 (some 5)).1 (by decide),
   (prepareRenameDentry_spec [] 1 (some 4)).2.2.2 4 rfl (by decide) (by decide)⟩

end Vfs

namespace Runsc

/-- Counterexample to claim C8: with a cgroup CPU count of 4 and a positive
quota of 16, the value passed via `--cpu-num` is 4, not
`max 2 ⌈quota⌉ = 16`: the quota-derived count is also capped by the
cgroup's CPU count (it can only lower it). -/
theorem cpuNumArg_not_quota_only :
    cpuNumArg 4 true 16 = 4 ∧ max 2 ⌈(16 : ℚ)⌉ = 16 ∧ (4 : Int) ≠ 16 := by
  refine ⟨?_, ?_, by decide⟩
  · norm_num [cpuNumArg]
  · norm_num

/-- Claim C8 (amended): when `cpu-num-from-quota` is set and the cgroup CPU
quota is positive, the CPU count passed to the sandbox process is
`min cpuNum (max 2 ⌈quota⌉)` — `ceil(quota)` clamped to a minimum of 2,
but never raised above the cgroup's CPU count. -/
theorem cpuNumArg_spec (cpuNum : Int) (quota : ℚ) (h : 0 < quota) :
    cpuNumArg cpuNum true quota = min cpuNum (max 2 ⌈quota⌉) := by
  have hc : 0 < ⌈quota⌉ := Int.ceil_pos.mpr h
  unfold cpuNumArg
  simp only [if_true]
  generalize hq : ⌈quota⌉ = n at hc ⊢
  split_ifs <;> omega

/-- Witness for C8 (amended): quota 5/2 with 4 CPUs yields 3. -/
theorem cpuNumArg_spec_witness :
    cpuNumArg 4 true (5 / 2) = min 4 (max 2 ⌈(5 / 2 : ℚ)⌉) :=
  cpuNumArg_spec 4 (5 / 2) (by norm_num)

/-- Claim C2: a successful `destroy` removes the control socket file (when
the address is a filesystem path) and leaves the boot process dead (when
the PID was known), and a second call after a successful first one is a
no-op returning success. -/
theorem destroy_idempotent (s s1 : Sandbox) (h h1 : Host)
    (hd : destroy s h = some (s1, h1)) :
    destroy s1 h1 = some (s1, h1) ∧
    (isFsPath s.controlAddress = true → h1.controlFileExists = false) ∧
    (s.pid ≠ 0 → h1.processAlive = false) := by
  rcases s with ⟨ca, pid, child⟩
  rcases h with ⟨cf, alive, reaped⟩
  simp only [destroy, removeControlFile, waitForStopped, isFsPath] at hd ⊢
  repeat' split at hd
  all_goals try cases hd
  all_goals simp_all [destroy, removeControlFile, waitForStopped, isFsPath]

/-- Witness for C2: destroying a non-child sandbox with a live boot process
and a filesystem control socket, then destroying it again. -/
theorem destroy_idempotent_witness :
    destroy sandboxEx hostExAfter = some (sandboxEx, hostExAfter) ∧
    (isFsPath sandboxEx.controlAddress = true →
      hostExAfter.controlFileExists = false) ∧
    (sandboxEx.pid ≠ 0 → hostExAfter.processAlive = false) :=
  destroy_idempotent sandboxEx sandboxEx hostEx hostExAfter (by decide)

end Runsc

namespace Boot

set_option maxHeartbeats 2000000 in
/-- Claim C9: Restore errors without loading any state when given zero
files, more than two files, or an empty (size-zero) state file, and the
object-graph load is only ever reached with one or two files. -/
theorem restore_file_checks (e : RestoreEnv) :
    (e.fileSizes.length = 0 → restore e = ⟨true, false⟩) ∧
    (2 < e.fileSizes.length → restore e = ⟨true, false⟩) ∧
    ((e.fileSizes.length = 1 ∨ e.fileSizes.length = 2) →
      e.fileSizes.headD 0 = 0 → restore e = ⟨true, false⟩) ∧
    ((restore e).loadAttempted = true →
      e.fileSizes.length = 1 ∨ e.fileSizes.length = 2) := by
  refine ⟨?_, ?_, ?_, ?_⟩
  · intro h0
    simp [restore, h0]
  · intro h2
    have h0 : ¬e.fileSizes.length = 0 := by omega
    simp [restore, h0, h2]
  · intro hlen hsz
    unfold restore
    split_ifs <;> first | rfl | omega | simp_all
  · intro hload
    generalize hre : restore e = o at hload
    obtain ⟨er, la⟩ := o
    dsimp only at hload
    subst hload
    unfold restore at hre
    repeat' split at hre
    all_goals first
      | (injection hre with h1 h2; exact Bool.noConfusion h2)
      | omega

/-- Witness for C9: a two-file call with an empty state file is rejected
without loading; when the one-file call reaches the load, the file count
was one or two. -/
theorem restore_file_checks_witness :
    restore emptyStateEnv = ⟨true, false⟩ ∧
    ((restore goodStateEnv).loadAttempted = true →
      goodStateEnv.fileSizes.length = 1 ∨ goodStateEnv.fileSizes.length = 2) :=
  ⟨(restore_file_checks emptyStateEnv).2.2.1 (Or.inr (by decide)) (by decide),
   (restore_file_checks goodStateEnv).2.2.2⟩

end Boot

namespace Mount

theorem testBit_false_of_and_eq_zero {f mask i : Nat}
    (h : f &&& mask = 0) (hm : mask.testBit i = true) : f.testBit i = false := by
  have hh := congrArg (fun n => Nat.testBit n i) h
  simp only [Nat.testBit_land, Nat.zero_testBit] at hh
  cases hf : f.testBit i
  · rfl
  · rw [hf, hm] at hh
    simpa using hh

theorem propagationFlags_testBit (i : Nat) :
    propagationFlags.testBit i =
      (decide (i = 17) || decide (i = 18) || decide (i = 19) || decide (i = 20)) := by
  rcases Nat.lt_or_ge i 21 with hi | hi
  · interval_cases i <;> decide
  · have hlt : propagationFlags < 2 ^ i :=
      lt_of_lt_of_le (by decide) (Nat.pow_le_pow_right (by omega) hi)
    rw [Nat.testBit_eq_false_of_lt hlt]
    have n17 : ¬(i = 17) := by omega
    have n18 : ¬(i = 18) := by omega
    have n19 : ¬(i = 19) := by omega
    have n20 : ¬(i = 20) := by omega
    simp [n17, n18, n19, n20]

theorem MS_PRIVATE_testBit (i : Nat) : MS_PRIVATE.testBit i = decide (i = 18) := by
  rcases Nat.lt_or_ge i 21 with hi | hi
  · interval_cases i <;> decide
  · have hlt : MS_PRIVATE < 2 ^ i :=
      lt_of_lt_of_le (by decide) (Nat.pow_le_pow_right (by omega) hi)
    rw [Nat.testBit_eq_false_of_lt hlt]
    have n18 : ¬(i = 18) := by omega
    simp [n18]

theorem MS_SHARED_testBit (i : Nat) : MS_SHARED.testBit i = decide (i = 20) := by
  rcases Nat.lt_or_ge i 21 with hi | hi
  · interval_cases i <;> decide
  · have hlt : MS_SHARED < 2 ^ i :=
      lt_of_lt_of_le (by decide) (Nat.pow_le_pow_right (by omega) hi)
    rw [Nat.testBit_eq_false_of_lt hlt]
    have n20 : ¬(i = 20) := by omega
    simp [n20]

theorem MS_both_testBit (i : Nat) :
    (MS_PRIVATE + MS_SHARED).testBit i = (decide (i = 18) || decide (i = 20)) := by
  rcases Nat.lt_or_ge i 21 with hi | hi
  · interval_cases i <;> decide
  · have hlt : MS_PRIVATE + MS_SHARED < 2 ^ i :=
      lt_of_lt_of_le (by decide) (Nat.pow_le_pow_right (by omega) hi)
    rw [Nat.testBit_eq_false_of_lt hlt]
    have n18 : ¬(i = 18) := by omega
    have n20 : ¬(i = 20) := by omega
    simp [n18, n20]

theorem and_propagationFlags_val {f : Nat}
    (h17 : f.testBit 17 = false) (h19 : f.testBit 19 = false) :
    f &&& propagationFlags =
      (cond (f.testBit 18) MS_PRIVATE 0) + (cond (f.testBit 20) MS_SHARED 0) := by
  apply Nat.eq_of_testBit_eq
  intro i
  rw [Nat.testBit_land, propagationFlags_testBit]
  cases h18 : f.testBit 18 <;> cases h20 : f.testBit 20 <;>
    simp only [cond_true, cond_false, Nat.zero_add, Nat.add_zero] <;>
    (by_cases e17 : i = 17
     · subst e17
       simp [h17, MS_PRIVATE_testBit, MS_SHARED_testBit, MS_both_testBit,
         Nat.zero_testBit]
     · by_cases e18 : i = 18
       · subst e18
         simp [h18, MS_PRIVATE_testBit, MS_SHARED_testBit, MS_both_testBit,
           Nat.zero_testBit]
       · by_cases e19 : i = 19
         · subst e19
           simp [h19, MS_PRIVATE_testBit, MS_SHARED_testBit, MS_both_testBit,
             Nat.zero_testBit]
         · by_cases e20 : i = 20
           · subst e20
             simp [h20, MS_PRIVATE_testBit, MS_SHARED_testBit, MS_both_testBit,
               Nat.zero_testBit]
           · simp [e17, e18, e19, e20, MS_PRIVATE_testBit, MS_SHARED_testBit,
               MS_both_testBit, Nat.zero_testBit])

/-- Claim C10: with CAP_SYS_ADMIN held, `mount(2)` returns EINVAL whenever
the magic-stripped flags intersect the unsupported set (MS_REMOUNT,
MS_SLAVE, MS_UNBINDABLE, MS_MOVE, MS_REC, MS_NODIRATIME, MS_STRICTATIME);
whatever reaches SetMountPropagationAt is exactly MS_SHARED or MS_PRIVATE;
and a multi-flag propagation selection also yields EINVAL. -/
theorem mount_flag_handling (flags0 : Nat) (targetOk sourceOk : Bool) :
    (stripMagic flags0 &&& unsupportedFlags ≠ 0 →
      mountSyscall true flags0 targetOk sourceOk = .einval) ∧
    (∀ p, mountSyscall true flags0 targetOk sourceOk = .setPropagation p →
      p = MS_SHARED ∨ p = MS_PRIVATE) ∧
    (targetOk = true → stripMagic flags0 &&& unsupportedFlags = 0 →
      ¬(stripMagic flags0 &&& MS_BIND = MS_BIND) →
      stripMagic flags0 &&& propagationFlags ≠ 0 →
      isPowerOfTwo64 (stripMagic flags0 &&& propagationFlags) = false →
      mountSyscall true flags0 targetOk sourceOk = .einval) := by
  refine ⟨?_, ?_, ?_⟩
  · intro h
    simp [mountSyscall, h]
  · intro p hp
    unfold mountSyscall at hp
    rw [if_neg (by simp : ¬¬(true = true))] at hp
    dsimp only at hp
    by_cases hun : stripMagic flags0 &&& unsupportedFlags ≠ 0
    · rw [if_pos hun] at hp
      cases hp
    rw [if_neg hun] at hp
    by_cases htgt : targetOk = true
    · rw [if_neg (not_not_intro htgt)] at hp
      by_cases hbind : stripMagic flags0 &&& MS_BIND = MS_BIND
      · rw [if_pos hbind] at hp
        split at hp <;> cases hp
      rw [if_neg hbind] at hp
      by_cases hprop : stripMagic flags0 &&& propagationFlags ≠ 0
      · rw [if_pos hprop] at hp
        by_cases hpow : ¬(isPowerOfTwo64 (stripMagic flags0 &&& propagationFlags) = true)
        · rw [if_pos hpow] at hp
          cases hp
        rw [if_neg hpow] at hp
        injection hp with hpe
        subst hpe
        have hun0 : stripMagic flags0 &&& unsupportedFlags = 0 := not_ne_iff.mp hun
        have h17 : (stripMagic flags0).testBit 17 = false :=
          testBit_false_of_and_eq_zero hun0 (by decide)
        have h19 : (stripMagic flags0).testBit 19 = false :=
          testBit_false_of_and_eq_zero hun0 (by decide)
        have hval := and_propagationFlags_val h17 h19
        have hpow2 : isPowerOfTwo64 (stripMagic flags0 &&& propagationFlags) = true :=
          not_not.mp hpow
        cases hb18 : (stripMagic flags0).testBit 18 <;>
          cases hb20 : (stripMagic flags0).testBit 20 <;>
          rw [hb18, hb20] at hval <;>
          simp only [cond_true, cond_false, Nat.zero_add, Nat.add_zero] at hval
        · exact absurd hval hprop
        · exact Or.inl hval
        · exact Or.inr hval
        · rw [hval] at hpow2
          exact absurd hpow2 (by decide)
      · rw [if_neg hprop] at hp
        cases hp
    · rw [if_pos (by simpa using htgt)] at hp
      cases hp
  · intro ht hun hbind hprop hpow
    simp [mountSyscall, ht, hun, hbind, hprop, hpow]

/-- Witness for C10: MS_REC alone is EINVAL; MS_SHARED alone reaches
propagation with exactly MS_SHARED; MS_SHARED|MS_PRIVATE together are
EINVAL. -/
theorem mount_flag_handling_witness :
    mountSyscall true MS_REC true true = .einval ∧
    (MS_SHARED = MS_SHARED ∨ MS_SHARED = MS_PRIVATE) ∧
    mountSyscall true (MS_SHARED + MS_PRIVATE) true true = .einval :=
  ⟨(mount_flag_handling MS_REC true true).1 (by decide),
   (mount_flag_handling MS_SHARED true true).2.1 MS_SHARED (by decide),
   (mount_flag_handling (MS_SHARED + MS_PRIVATE) true true).2.2 rfl (by decide)
     (by decide) (by decide) (by decide)⟩

end Mount
